import Mathlib

/-!
Verification of the fruit-jam euclidean sequencer sources.

The development shallowly embeds the three Python modules:

* `euclidean.py` — Bjorklund-style Euclidean rhythm generation
  (`gen_rhythm` and its inner recursive worker `recurse`);
* `code.py` — the tick arithmetic (`elapsed_ms`), the `RhythmRing`
  parameter holder with its clamping setters, and the MIDI event decode
  dispatch of `main`'s inner loop;
* `sb_usb_descriptor.py` — the descriptor buffer splitter (`split_desc`),
  the per-descriptor validating constructors, and
  `Descriptor.read_configuration`.

Strings of pattern symbols are embedded as `List Char` with HIT = 'x' and
REST = '.'.  Python exceptions are embedded as `Except String` results;
mutation of `self` is embedded as explicit state passing.  Python integers
are `Int` where the source can see negative values (the `RhythmRing`
setters take arbitrary controller values) and `Nat` for byte data and
counts.
-/

set_option maxRecDepth 10000

namespace Sequencer

/-! ## euclidean.py -/

/-- The inner recursive worker of `gen_rhythm` (euclidean.py, `recurse`).

The Python function recurses on lists whose combined length strictly
decreases; the embedding adds an explicit `fuel` argument so that the
definition is structural and computable.  `gen_rhythm` supplies
`fuel = len(group1) + len(group2)`, which always suffices, so the
`fuel = 0` branch (which returns the concatenation of whatever remains,
necessarily `[]` there) is never taken on the calls the wrapper makes.

Case for case this mirrors the source: `group1` empty, `group2` empty,
equal lengths, `group2` shorter (pair onto the first `len2` items of
`group1`, recurse with the untouched tail of `group1` as the new
`group2`), and `group2` longer (pair one `group2` item onto every
`group1` item, recurse on the remaining `group2` tail). -/
def recurse : Nat → List (List Char) → List (List Char) → List Char
  | 0, group1, group2 => (group1 ++ group2).flatten
  | fuel + 1, group1, group2 =>
    let len1 := group1.length
    let len2 := group2.length
    if len1 = 0 then group2.flatten
    else if len2 = 0 then group1.flatten
    else if len2 = len1 then (List.zipWith (fun a b => a ++ b) group1 group2).flatten
    else if len2 ≤ len1 then
      recurse fuel (List.zipWith (fun a b => a ++ b) (group1.take len2) group2)
        (group1.drop len2)
    else
      recurse fuel (List.zipWith (fun a b => a ++ b) group1 (group2.take len1))
        (group2.drop len1)

/-- `gen_rhythm(beats, hits, shift)` from euclidean.py: start from `hits`
singleton HIT groups and `beats - hits` singleton REST groups, run the
recursive distribution, and when `shift > 0` rotate the result left by
`shift % beats`. -/
def gen_rhythm (beats hits shift : Nat) : List Char :=
  let rests := beats - hits
  let group1 := List.replicate hits ['x']
  let group2 := List.replicate rests ['.']
  if shift > 0 then
    let r := recurse (hits + rests) group1 group2
    let s := shift % beats
    r.drop s ++ r.take s
  else
    recurse (hits + rests) group1 group2

/-- Left rotation of a pattern by `n` positions, the spec's
`pattern[shift:] + pattern[:shift]`. -/
def rotl (l : List Char) (n : Nat) : List Char := l.drop n ++ l.take n

/-- Indices of the HIT symbols of a pattern, in order. -/
def hitIndices (p : List Char) : List Nat :=
  (List.range p.length).filter (fun i => p.getD i '.' = 'x')

/-- Circular gaps between consecutive HIT symbols of a pattern: the
differences of consecutive hit indices followed by the wrap-around gap
from the last hit back to the first. -/
def circularGaps (p : List Char) : List Nat :=
  match hitIndices p with
  | [] => []
  | i :: rest =>
    List.zipWith (fun a b => b - a) (i :: rest) rest ++
      [p.length - (i :: rest).getLast?.getD 0 + i]

/-- A pattern is evenly spaced when any two of its circular gaps differ by
at most 1. -/
def evenlySpaced (p : List Char) : Bool :=
  let gs := circularGaps p
  gs.all (fun a => gs.all (fun b => a ≤ b + 1))

/-- Exhaustive check of `gen_rhythm` with `shift = 0` over the sequencer's
whole parameter domain: the symbols are always HIT/REST, and for
`hits ≤ beats` the length is `beats` with exactly `hits` HITs. -/
lemma gen_rhythm_zero_shift_spec : ∀ b < 17, ∀ h < 17,
    (1 ≤ b → ∀ c ∈ gen_rhythm b h 0, c = 'x' ∨ c = '.') ∧
    (1 ≤ b ∧ h ≤ b →
      (gen_rhythm b h 0).length = b ∧ (gen_rhythm b h 0).count 'x' = h) := by
  decide

/-- A nonzero shift only rotates the unshifted pattern: `gen_rhythm b h s`
is `gen_rhythm b h 0` rotated left by `s % b`. -/
lemma gen_rhythm_shift_rotl (b h s : Nat) :
    gen_rhythm b h s = rotl (gen_rhythm b h 0) (s % b) := by
  by_cases hs : 0 < s
  · simp [gen_rhythm, rotl, hs]
  · have h0 : s = 0 := by omega
    subst h0
    simp [gen_rhythm, rotl]

/-- C1: for every beats in 1..16 and every hits in 0..beats,
`gen_rhythm beats hits 0` returns a pattern of length exactly `beats`
containing exactly `hits` HIT ('x') symbols, the remaining symbols being
REST ('.'). -/
theorem C1_gen_rhythm_length_hits (beats hits : Nat)
    (hb : 1 ≤ beats ∧ beats ≤ 16) (hh : hits ≤ beats) :
    (gen_rhythm beats hits 0).length = beats ∧
    (gen_rhythm beats hits 0).count 'x' = hits ∧
    ∀ c ∈ gen_rhythm beats hits 0, c = 'x' ∨ c = '.' := by
  have key := gen_rhythm_zero_shift_spec beats (by omega) hits (by omega)
  exact ⟨(key.2 ⟨hb.1, hh⟩).1, (key.2 ⟨hb.1, hh⟩).2, key.1 hb.1⟩

/-- C1 witness: the theorem applied at beats = 8, hits = 5. -/
theorem C1_witness :
    (gen_rhythm 8 5 0).length = 8 ∧ (gen_rhythm 8 5 0).count 'x' = 5 ∧
    ∀ c ∈ gen_rhythm 8 5 0, c = 'x' ∨ c = '.' :=
  C1_gen_rhythm_length_hits 8 5 (by decide) (by decide)

/-- C2: over the whole parameter domain the circular gaps between
consecutive HIT symbols of `gen_rhythm b h 0` differ from one another by
at most 1; and `gen_rhythm 8 5 0` is a rotation of the Bjorklund
reference pattern "x.xx.xx." with gap multiset {2, 1, 2, 2, 1}. -/
theorem C2_gen_rhythm_evenness :
    (∀ b < 17, ∀ h < 17, 1 ≤ b ∧ 1 ≤ h ∧ h ≤ b →
      evenlySpaced (gen_rhythm b h 0) = true) ∧
    (∃ k < 8, gen_rhythm 8 5 0 = rotl ['x', '.', 'x', 'x', '.', 'x', 'x', '.'] k) ∧
    circularGaps (gen_rhythm 8 5 0) = [2, 1, 2, 2, 1] :=
  ⟨by decide, ⟨3, by decide, by decide⟩, by decide⟩

/-- C3: for every beats in 1..16, hits in 0..beats and shift in 0..beats,
`gen_rhythm beats hits shift` equals `gen_rhythm beats hits 0` rotated
left by `shift % beats` positions. -/
theorem C3_gen_rhythm_shift_rotation (beats hits shift : Nat)
    (hb : 1 ≤ beats ∧ beats ≤ 16) (hh : hits ≤ beats) (hs : shift ≤ beats) :
    gen_rhythm beats hits shift = rotl (gen_rhythm beats hits 0) (shift % beats) :=
  gen_rhythm_shift_rotl beats hits shift

/-- C3 witness: the theorem applied at beats = 8, hits = 5, shift = 3. -/
theorem C3_witness :
    gen_rhythm 8 5 3 = rotl (gen_rhythm 8 5 0) (3 % 8) :=
  C3_gen_rhythm_shift_rotation 8 5 3 (by decide) (by decide) (by decide)

/-- Rotating a pattern preserves its length. -/
lemma rotl_length (l : List Char) (n : Nat) : (rotl l n).length = l.length := by
  simp [rotl]
  omega

/-- Rotating a pattern preserves the count of every symbol. -/
lemma rotl_count (l : List Char) (n : Nat) (c : Char) :
    (rotl l n).count c = l.count c := by
  rw [rotl, List.count_append, Nat.add_comm, ← List.count_append,
    List.take_append_drop]

/-- Rotating a pattern preserves its set of symbols. -/
lemma rotl_mem (l : List Char) (n : Nat) (c : Char) :
    c ∈ rotl l n ↔ c ∈ l := by
  rw [rotl, List.mem_append]
  constructor
  · rintro (h | h)
    · exact List.drop_subset n l h
    · exact List.take_subset n l h
  · intro h
    rw [← List.take_append_drop n l, List.mem_append] at h
    exact h.symm

/-- `gen_rhythm` facts for every shift, on the domain the `RhythmRing`
setters can reach: beats in 1..16 and hits in 0..16 (hits above beats is
reachable, see C4). -/
lemma gen_rhythm_spec (b h s : Nat) (hb : 1 ≤ b) (hb16 : b ≤ 16) (hh : h ≤ 16) :
    (∀ c ∈ gen_rhythm b h s, c = 'x' ∨ c = '.') ∧
    (h ≤ b → (gen_rhythm b h s).length = b ∧ (gen_rhythm b h s).count 'x' = h) := by
  rw [gen_rhythm_shift_rotl]
  have key := gen_rhythm_zero_shift_spec b (by omega) h (by omega)
  refine ⟨fun c hc => key.1 hb c ((rotl_mem _ _ _).1 hc), fun hhb => ?_⟩
  obtain ⟨hlen, hcnt⟩ := key.2 ⟨hb, hhb⟩
  rw [rotl_length, rotl_count, hlen, hcnt]
  exact ⟨rfl, rfl⟩

/-! ## code.py: RhythmRing -/

/-- The state a `RhythmRing` (code.py) carries for the sequencer logic:
the four clamped parameters and the generated pattern.  The drawing
fields (bitmap, centre, radius, palette indices) take no part in any
claim and are omitted. -/
structure RhythmRing where
  beats : Int
  hits : Int
  shift : Int
  bpm : Int
  rhythm : List Char
deriving DecidableEq

/-- `RhythmRing.__init__`: clamp the four parameters field by field
(`_hits` and `_shift` are clamped against the already-clamped `_beats`),
then generate the initial pattern.  The source generates it from the raw
constructor arguments `beats, hits, shift`, not from the clamped fields,
exactly as line 220 of code.py does. -/
def RhythmRing.init (beats hits shift bpm : Int) : RhythmRing :=
  let b := max 1 (min 16 beats)
  { beats := b
    hits := max 0 (min b hits)
    shift := max 0 (min b shift)
    bpm := max 30 (min 300 bpm)
    rhythm := gen_rhythm beats.toNat hits.toNat shift.toNat }

/-- The `beats` setter: clip to 1..16, regenerate the rhythm from the new
beats with hits and shift each clipped to it (the stored `_hits` and
`_shift` fields themselves are not re-clamped). -/
def RhythmRing.setBeats (self : RhythmRing) (value : Int) : RhythmRing :=
  let b := max 1 (min 16 value)
  { self with
    beats := b
    rhythm := gen_rhythm b.toNat (min b self.hits).toNat (min b self.shift).toNat }

/-- The `hits` setter: clip to 0..beats, regenerate the rhythm. -/
def RhythmRing.setHits (self : RhythmRing) (value : Int) : RhythmRing :=
  let b := self.beats
  let h := max 0 (min b value)
  { self with
    hits := h
    rhythm := gen_rhythm b.toNat h.toNat (min b self.shift).toNat }

/-- The `shift` setter: clip to 0..beats, regenerate the rhythm from the
stored `_hits` as is (the source passes `self._hits` unclipped here). -/
def RhythmRing.setShift (self : RhythmRing) (value : Int) : RhythmRing :=
  let b := self.beats
  let s := max 0 (min b value)
  { self with
    shift := s
    rhythm := gen_rhythm b.toNat self.hits.toNat s.toNat }

/-- The `bpm` setter: clip to 30..300; the rhythm is not regenerated. -/
def RhythmRing.setBpm (self : RhythmRing) (value : Int) : RhythmRing :=
  { self with bpm := max 30 (min 300 value) }

/-- One call to a `RhythmRing` property setter, with its argument. -/
inductive RingOp where
  | opBeats (value : Int)
  | opHits (value : Int)
  | opShift (value : Int)
  | opBpm (value : Int)

/-- Apply one setter call to a ring. -/
def applyOp (r : RhythmRing) : RingOp → RhythmRing
  | RingOp.opBeats v => r.setBeats v
  | RingOp.opHits v => r.setHits v
  | RingOp.opShift v => r.setShift v
  | RingOp.opBpm v => r.setBpm v

/-- Apply a finite sequence of setter calls, first to last. -/
def applyOps (r : RhythmRing) (ops : List RingOp) : RhythmRing :=
  ops.foldl applyOp r

/-- The stored-state invariant exactly as claim C4 states it: fields in
range with hits and shift bounded by beats, and a HIT/REST pattern of
length exactly beats.  This definition follows the claim's words; the
code falsifies it (see `C4_counterexample_ring`). -/
def claimedRingInvariant (r : RhythmRing) : Prop :=
  1 ≤ r.beats ∧ r.beats ≤ 16 ∧ 0 ≤ r.hits ∧ r.hits ≤ r.beats ∧
  0 ≤ r.shift ∧ r.shift ≤ r.beats ∧ 30 ≤ r.bpm ∧ r.bpm ≤ 300 ∧
  (r.rhythm.length : Int) = r.beats ∧ (∀ c ∈ r.rhythm, c = 'x' ∨ c = '.')

/-- The invariant the code actually maintains: every field stays in its
absolute range, but hits and shift are only bounded by 16, not by beats;
the pattern is HIT/REST and has length beats (with exactly hits HITs)
whenever the stored hits does not exceed the stored beats. -/
def ringInv (r : RhythmRing) : Prop :=
  1 ≤ r.beats ∧ r.beats ≤ 16 ∧ 0 ≤ r.hits ∧ r.hits ≤ 16 ∧
  0 ≤ r.shift ∧ r.shift ≤ 16 ∧ 30 ≤ r.bpm ∧ r.bpm ≤ 300 ∧
  (∀ c ∈ r.rhythm, c = 'x' ∨ c = '.') ∧
  (r.hits ≤ r.beats →
    (r.rhythm.length : Int) = r.beats ∧ (r.rhythm.count 'x' : Int) = r.hits)

/-- Each single setter call preserves `ringInv`. -/
lemma ringInv_applyOp (r : RhythmRing) (op : RingOp) (hr : ringInv r) :
    ringInv (applyOp r op) := by
  obtain ⟨h1, h2, h3, h4, h5, h6, h7, h8, hchars, hcond⟩ := hr
  cases op with
  | opBeats v =>
    have hgen := gen_rhythm_spec (max 1 (min 16 v)).toNat
      (min (max 1 (min 16 v)) r.hits).toNat
      (min (max 1 (min 16 v)) r.shift).toNat
      (by omega) (by omega) (by omega)
    simp only [ringInv, applyOp, RhythmRing.setBeats]
    refine ⟨by omega, by omega, h3, h4, h5, h6, h7, h8, hgen.1, fun hhb => ?_⟩
    obtain ⟨hlen, hcnt⟩ := hgen.2 (by omega)
    rw [hlen, hcnt]
    omega
  | opHits v =>
    have hgen := gen_rhythm_spec r.beats.toNat (max 0 (min r.beats v)).toNat
      (min r.beats r.shift).toNat (by omega) (by omega) (by omega)
    simp only [ringInv, applyOp, RhythmRing.setHits]
    refine ⟨h1, h2, by omega, by omega, h5, h6, h7, h8, hgen.1, fun hhb => ?_⟩
    obtain ⟨hlen, hcnt⟩ := hgen.2 (by omega)
    rw [hlen, hcnt]
    omega
  | opShift v =>
    have hgen := gen_rhythm_spec r.beats.toNat r.hits.toNat
      (max 0 (min r.beats v)).toNat (by omega) (by omega) (by omega)
    simp only [ringInv, applyOp, RhythmRing.setShift]
    refine ⟨h1, h2, h3, h4, by omega, by omega, h7, h8, hgen.1, fun hhb => ?_⟩
    obtain ⟨hlen, hcnt⟩ := hgen.2 (by omega)
    rw [hlen, hcnt]
    omega
  | opBpm v =>
    simp only [ringInv, applyOp, RhythmRing.setBpm]
    exact ⟨h1, h2, h3, h4, h5, h6, by omega, by omega, hchars, hcond⟩

/-- A valid construction establishes `ringInv`. -/
lemma ringInv_init (beats hits shift bpm : Int)
    (hb : 1 ≤ beats ∧ beats ≤ 16) (hh : 0 ≤ hits ∧ hits ≤ beats)
    (hs : 0 ≤ shift ∧ shift ≤ beats) (hp : 30 ≤ bpm ∧ bpm ≤ 300) :
    ringInv (RhythmRing.init beats hits shift bpm) := by
  have hgen := gen_rhythm_spec beats.toNat hits.toNat shift.toNat
    (by omega) (by omega) (by omega)
  simp only [ringInv, RhythmRing.init]
  refine ⟨by omega, by omega, by omega, by omega, by omega, by omega,
    by omega, by omega, hgen.1, fun hhb => ?_⟩
  obtain ⟨hlen, hcnt⟩ := hgen.2 (by omega)
  rw [hlen, hcnt]
  omega

/-- `ringInv` is preserved by any finite sequence of setter calls. -/
lemma ringInv_applyOps (r : RhythmRing) (ops : List RingOp) (hr : ringInv r) :
    ringInv (applyOps r ops) := by
  induction ops generalizing r with
  | nil => exact hr
  | cons op rest ih =>
    simpa [applyOps] using ih (applyOp r op) (ringInv_applyOp r op hr)

/-- C4 counterexample: from the valid construction (beats 16, hits 10,
shift 0, bpm 80), the single setter call beats := 4 leaves the stored
hits at 10 > beats = 4, violating the claimed invariant; a following
shift := 2 call then regenerates a rhythm of length 10 while beats is 4,
so even the pattern-length part fails. -/
theorem C4_counterexample_ring :
    ¬ claimedRingInvariant ((RhythmRing.init 16 10 0 80).setBeats 4) ∧
    (((RhythmRing.init 16 10 0 80).setBeats 4).setShift 2).rhythm.length = 10 ∧
    (((RhythmRing.init 16 10 0 80).setBeats 4).setShift 2).beats = 4 := by
  refine ⟨?_, by decide, by decide⟩
  simp only [claimedRingInvariant]
  decide

/-- C4 amended: after a valid construction (beats in 1..16, hits in
0..beats, shift in 0..beats, bpm in 30..300) and any finite sequence of
setter calls with arbitrary integer arguments, the stored fields satisfy
beats in 1..16, hits in 0..16, shift in 0..16 and bpm in 30..300, the
stored rhythm is a HIT/REST sequence, and whenever the stored hits does
not exceed the stored beats the rhythm has length exactly beats with
exactly hits HIT symbols.  (The claim's stronger invariant — hits and
shift bounded by beats and the length unconditional — fails: the beats
setter does not re-clamp the stored hits/shift, see the
counterexample.) -/
theorem C4_ring_invariant (beats hits shift bpm : Int) (ops : List RingOp)
    (hb : 1 ≤ beats ∧ beats ≤ 16) (hh : 0 ≤ hits ∧ hits ≤ beats)
    (hs : 0 ≤ shift ∧ shift ≤ beats) (hp : 30 ≤ bpm ∧ bpm ≤ 300) :
    ringInv (applyOps (RhythmRing.init beats hits shift bpm) ops) :=
  ringInv_applyOps _ ops (ringInv_init beats hits shift bpm hb hh hs hp)

/-- C4 witness: the theorem applied to the valid construction
(8, 5, 0, 80) followed by the single setter call beats := 4. -/
theorem C4_witness :
    ringInv (applyOps (RhythmRing.init 8 5 0 80) [RingOp.opBeats 4]) :=
  C4_ring_invariant 8 5 0 80 [RingOp.opBeats 4]
    (by norm_num) (by norm_num) (by norm_num) (by norm_num)

/-! ## code.py: tick arithmetic -/

/-- `elapsed_ms(t1, t2)` from code.py: wraparound subtraction of two tick
counter values.  The source computes `(t2 - t1) & 0x3fffffff`; for Python
integers a bitwise AND with the all-ones mask `0x3fffffff` is exactly
reduction modulo `0x40000000 = 2^30`, which is how the embedding writes
it. -/
def elapsed_ms (t1 t2 : Int) : Int := (t2 - t1) % 0x40000000

/-- C5: at the wraparound pair t1 = 0x1FFFFFF0, t2 = 0x10 of the 2^29
tick counter, `elapsed_ms` returns 0x20000020, not the 0x20 the claim
(and the source's own comment, which calls 0x3fffffff "(2**29)-1")
require: the mask in the code is 2^30 - 1, one bit too wide for the 2^29
rollover. -/
theorem C5_elapsed_ms_bug :
    elapsed_ms 0x1FFFFFF0 0x10 = 0x20000020 ∧
    elapsed_ms 0x1FFFFFF0 0x10 ≠ 0x20 := by
  decide

/-! ## code.py: the MIDI event decode dispatch

The inner `while True` loop of `main` (code.py lines 385..457) decodes
each 4-byte event packet and dispatches on the code index number.  The
embedding records the calls made to the synthesis collaborator
(`synth.press` / `synth.release` / `synth.release_all`, the latter cached
as `panic`) and the updated `RhythmRing`.  Debug writes to the serial
console carry no synthesis effect and are not calls to the collaborator.
-/

/-- The MIDI CC knob assignments of code.py. -/
def CC_BEATS : Nat := 17

/-- CC number of the hits knob. -/
def CC_HITS : Nat := 91

/-- CC number of the shift knob. -/
def CC_SHIFT : Nat := 79

/-- CC number of the bpm knob. -/
def CC_BPM : Nat := 72

/-- A call made to the synthesis collaborator. -/
inductive SynthCall where
  | press (note : Nat)
  | release (note : Nat)
  | panic
deriving DecidableEq

/-- `key_change(num, up)` from code.py: the note on / note off handler.
Its body is `pass`: it makes no call at all. -/
def key_change (num : Nat) (up : Bool) : List SynthCall := []

/-- Decode and dispatch one 4-byte MIDI event packet exactly as the
decode loop of `main` does: `cin = data[0] & 0x0f`, `num = data[2]`,
`val = data[3]`; a CC event (cin 0xB) triggers panic on (123, 0) or one
of the four rhythm-knob setters; every other code index produces at most
a debug print and no synthesis call.  Returns the synthesis calls made
and the ring state after the event. -/
def decode_event (data : List Nat) (ring : RhythmRing) :
    List SynthCall × RhythmRing :=
  let cin := data.getD 0 0 &&& 0x0f
  let num := data.getD 2 0
  let val := data.getD 3 0
  if cin = 0x0b then
    if num = 123 ∧ val = 0 then ([SynthCall.panic], ring)
    else if num = CC_BEATS then ([], ring.setBeats (val : Int))
    else if num = CC_HITS then ([], ring.setHits (val : Int))
    else if num = CC_SHIFT then ([], ring.setShift (val : Int))
    else if num = CC_BPM then ([], ring.setBpm (30 + (val : Int) * 2))
    else ([], ring)
  else ([], ring)

/-- Decode a stream of event packets in order, accumulating the
synthesis calls. -/
def decode_stream (events : List (List Nat)) (ring : RhythmRing) :
    List SynthCall × RhythmRing :=
  match events with
  | [] => ([], ring)
  | e :: rest =>
    let step := decode_event e ring
    let more := decode_stream rest step.2
    (step.1 ++ more.1, more.2)

/-- C6 counterexample: the claim's own example stream — note-on(60),
note-on(127), note-off(60) — produces no press or release call at all
(the decode loop never calls the synthesis collaborator for note events;
`key_change` is an empty stub), refuting "exactly one press(60) and one
release(60)". -/
theorem C6_counterexample_notes :
    (decode_stream [[0x09, 0x90, 60, 100], [0x09, 0x90, 127, 100],
      [0x08, 0x80, 60, 0]] (RhythmRing.init 8 5 0 80)).1 = [] ∧
    key_change 60 true = [] := by
  constructor
  · decide
  · rfl

/-- C6 amended: a decoded note-on or note-off event (code index 0x9 or
0x8, any data1 — in the 21..108 range or not) causes no call to the
synthesis collaborator and leaves the ring unchanged; the decode loop
dispatches synthesis calls only for control-change packets. -/
theorem C6_note_events_no_calls (data : List Nat) (ring : RhythmRing)
    (hcin : data.getD 0 0 &&& 0x0f = 0x09 ∨ data.getD 0 0 &&& 0x0f = 0x08) :
    decode_event data ring = ([], ring) := by
  have hne : ¬ data.getD 0 0 &&& 0x0f = 0x0b := by
    rcases hcin with h | h <;> omega
  simp only [decode_event]
  rw [if_neg hne]

/-- C6 witness: the amended theorem applied to a note-on(60) packet on
channel 1. -/
theorem C6_witness :
    decode_event [0x09, 0x90, 60, 100] (RhythmRing.init 8 5 0 80) =
      ([], RhythmRing.init 8 5 0 80) :=
  C6_note_events_no_calls [0x09, 0x90, 60, 100] (RhythmRing.init 8 5 0 80)
    (by decide)

/-! ## sb_usb_descriptor.py: the buffer splitter -/

/-- The cursor loop of `split_desc` (sb_usb_descriptor.py lines 26..44).
The Python `for i in range(limit)` runs at most `limit` iterations, which
the embedding carries as the first argument; each iteration stops when
the cursor reaches the end of the buffer, reads the declared length at
the cursor, stops on a zero length or on a declared length that would
read past the end, and otherwise emits the slice
`data[cursor : cursor + length]` and advances the cursor by `length`. -/
def split_desc_go (data : List Nat) : Nat → Nat → List (List Nat)
  | 0, _ => []
  | fuel + 1, cursor =>
    if cursor = data.length then []
    else
      let length := data.getD cursor 0
      if length = 0 then []
      else if data.length < cursor + length then []
      else ((data.drop cursor).take length) :: split_desc_go data fuel (cursor + length)

/-- `split_desc(data)`: split a combined descriptor buffer into its
sub-descriptor slices, starting at cursor 0 with the source's
`range(limit)` iteration bound. -/
def split_desc (data : List Nat) : List (List Nat) :=
  split_desc_go data data.length 0

/-- The slices produced from any cursor, concatenated, form a contiguous
region of the buffer starting at that cursor. -/
lemma split_go_flatten (data : List Nat) :
    ∀ fuel cursor, (split_desc_go data fuel cursor).flatten ++
      data.drop (cursor + (split_desc_go data fuel cursor).flatten.length) =
      data.drop cursor := by
  intro fuel
  induction fuel with
  | zero => intro cursor; simp [split_desc_go]
  | succ fuel ih =>
    intro cursor
    by_cases h1 : cursor = data.length
    · simp [split_desc_go, h1]
    · by_cases h2 : data.getD cursor 0 = 0
      · simp only [split_desc_go, if_neg h1, if_pos h2, List.flatten_nil,
          List.nil_append, List.length_nil, Nat.add_zero]
      · by_cases h3 : data.length < cursor + data.getD cursor 0
        · simp only [split_desc_go, if_neg h1, if_neg h2, if_pos h3,
            List.flatten_nil, List.nil_append, List.length_nil, Nat.add_zero]
        · have hL : 0 < data.getD cursor 0 := Nat.pos_of_ne_zero h2
          simp only [split_desc_go, if_neg h1, if_neg h2, if_neg h3,
            List.flatten_cons, List.length_append, List.length_take,
            List.length_drop]
          have hmin : min (data.getD cursor 0) (data.length - cursor) =
              data.getD cursor 0 := by omega
          rw [hmin, List.append_assoc]
          have harith : cursor + (data.getD cursor 0 +
              (split_desc_go data fuel (cursor + data.getD cursor 0)).flatten.length) =
              (cursor + data.getD cursor 0) +
              (split_desc_go data fuel (cursor + data.getD cursor 0)).flatten.length := by
            omega
          rw [harith, ih (cursor + data.getD cursor 0), ← List.drop_drop]
          exact List.take_append_drop _ _

/-- Every slice produced from any in-range cursor is nonempty, declares
its own length in its first byte, and consists of bytes of the buffer. -/
lemma split_go_slices (data : List Nat) :
    ∀ fuel cursor, cursor ≤ data.length →
      ∀ s ∈ split_desc_go data fuel cursor,
        0 < s.length ∧ s.getD 0 0 = s.length ∧ s ⊆ data := by
  intro fuel
  induction fuel with
  | zero => intro cursor _ s hs; simp [split_desc_go] at hs
  | succ fuel ih =>
    intro cursor hcur s hs
    by_cases h1 : cursor = data.length
    · rw [split_desc_go, if_pos h1] at hs
      exact absurd hs (List.not_mem_nil s)
    · by_cases h2 : data.getD cursor 0 = 0
      · simp only [split_desc_go, if_neg h1, if_pos h2] at hs
        exact absurd hs (List.not_mem_nil s)
      · by_cases h3 : data.length < cursor + data.getD cursor 0
        · simp only [split_desc_go, if_neg h1, if_neg h2, if_pos h3] at hs
          exact absurd hs (List.not_mem_nil s)
        · simp only [split_desc_go, if_neg h1, if_neg h2, if_neg h3,
            List.mem_cons] at hs
          rcases hs with rfl | hs
          · have hL : 0 < data.getD cursor 0 := Nat.pos_of_ne_zero h2
            have hlen : ((data.drop cursor).take (data.getD cursor 0)).length =
                data.getD cursor 0 := by
              rw [List.length_take, List.length_drop]; omega
            refine ⟨by omega, ?_, ?_⟩
            · rw [hlen, List.getD_eq_getElem?_getD, List.getElem?_take,
                if_pos hL, List.getElem?_drop, Nat.add_zero,
                ← List.getD_eq_getElem?_getD]
            · exact (List.take_subset _ _).trans (List.drop_subset _ _)
          · exact ih (cursor + data.getD cursor 0) (by omega) s hs

/-- Slicing stops only at the end of the buffer, at a zero declared
length, or at a declared length that runs past the end. -/
lemma split_go_stop (data : List Nat) :
    ∀ fuel cursor, cursor ≤ data.length → data.length - cursor ≤ fuel →
      cursor + (split_desc_go data fuel cursor).flatten.length = data.length ∨
      data.getD (cursor + (split_desc_go data fuel cursor).flatten.length) 0 = 0 ∨
      data.length < cursor + (split_desc_go data fuel cursor).flatten.length +
        data.getD (cursor + (split_desc_go data fuel cursor).flatten.length) 0 := by
  intro fuel
  induction fuel with
  | zero =>
    intro cursor hcur hfuel
    left
    simp [split_desc_go]
    omega
  | succ fuel ih =>
    intro cursor hcur hfuel
    by_cases h1 : cursor = data.length
    · left
      simp only [split_desc_go, if_pos h1, List.flatten_nil, List.length_nil,
        Nat.add_zero]
      exact h1
    · by_cases h2 : data.getD cursor 0 = 0
      · right; left
        simp only [split_desc_go, if_neg h1, if_pos h2, List.flatten_nil,
          List.length_nil, Nat.add_zero]
        exact h2
      · by_cases h3 : data.length < cursor + data.getD cursor 0
        · right; right
          simp only [split_desc_go, if_neg h1, if_neg h2, if_pos h3,
            List.flatten_nil, List.length_nil, Nat.add_zero]
          exact h3
        · have hL : 0 < data.getD cursor 0 := Nat.pos_of_ne_zero h2
          have hmin : min (data.getD cursor 0) (data.length - cursor) =
              data.getD cursor 0 := by omega
          have key := ih (cursor + data.getD cursor 0) (by omega) (by omega)
          simp only [split_desc_go, if_neg h1, if_neg h2, if_neg h3,
            List.flatten_cons, List.length_append, List.length_take,
            List.length_drop, hmin]
          have harith : cursor + (data.getD cursor 0 +
              (split_desc_go data fuel (cursor + data.getD cursor 0)).flatten.length) =
              (cursor + data.getD cursor 0) +
              (split_desc_go data fuel (cursor + data.getD cursor 0)).flatten.length := by
            omega
          rw [harith]
          exact key

/-- A concrete fixture for C7: three concatenated sub-descriptors with
declared lengths 9 (configuration), 9 (interface) and 7 (endpoint),
followed by one trailing garbage byte 0x42. -/
def c7buf : List Nat :=
  [9, 2, 25, 0, 1, 1, 0, 0x80, 50,
   9, 4, 0, 0, 2, 1, 1, 0, 0,
   7, 5, 0x81, 3, 8, 0, 10,
   0x42]

/-- C7: `split_desc` returns an ordered sequence of slices that covers a
contiguous leading region of the buffer; every slice is nonempty and its
first byte equals its length (no partial sub-descriptor); slicing stops
exactly at the end of the buffer, at a zero declared-length byte, or at
a declared length that would read past the end; and the three-descriptor
fixture with declared lengths 9, 9, 7 plus a trailing garbage byte
splits into exactly three slices of those lengths. -/
theorem C7_split_desc_spec :
    (∀ data : List Nat,
      (split_desc data).flatten ++
        data.drop (split_desc data).flatten.length = data ∧
      (∀ s ∈ split_desc data, 0 < s.length ∧ s.getD 0 0 = s.length) ∧
      ((split_desc data).flatten.length = data.length ∨
        data.getD (split_desc data).flatten.length 0 = 0 ∨
        data.length < (split_desc data).flatten.length +
          data.getD (split_desc data).flatten.length 0)) ∧
    (split_desc c7buf).map List.length = [9, 9, 7] := by
  refine ⟨fun data => ⟨?_, ?_, ?_⟩, by decide⟩
  · have h := split_go_flatten data data.length 0
    simpa [split_desc] using h
  · intro s hs
    have h := split_go_slices data data.length 0 (by omega) s hs
    exact ⟨h.1, h.2.1⟩
  · have h := split_go_stop data data.length 0 (by omega) (by omega)
    simpa [split_desc] using h

/-! ## sb_usb_descriptor.py: descriptor records and parsers -/

/-- Packing `a <<< 8 ||| b` of a byte `b` onto a value `a` is plain
positional arithmetic. -/
lemma lor_shiftLeft_eq_add : ∀ (k a b : Nat), b < 2 ^ k →
    a <<< k ||| b = a * 2 ^ k + b := by
  intro k
  induction k with
  | zero =>
    intro a b hb
    have hb0 : b = 0 := by omega
    subst hb0
    simp [Nat.shiftLeft_eq]
  | succ k ih =>
    intro a b hb
    have hdecomp : Nat.bit (decide (b % 2 = 1)) (b >>> 1) = b :=
      Nat.bit_decide_mod_two_eq_one_shiftRight_one b
    have hsh : a <<< (k + 1) = Nat.bit false (a <<< k) := by
      simp [Nat.bit_val, Nat.shiftLeft_eq, Nat.pow_succ]
      ring
    have hlt : b >>> 1 < 2 ^ k := by
      rw [Nat.shiftRight_one]
      have h2 : 2 ^ (k + 1) = 2 ^ k * 2 := Nat.pow_succ 2 k
      omega
    calc a <<< (k + 1) ||| b
        = Nat.bit false (a <<< k) ||| Nat.bit (decide (b % 2 = 1)) (b >>> 1) := by
          rw [hsh, hdecomp]
      _ = Nat.bit (false || decide (b % 2 = 1)) ((a <<< k) ||| (b >>> 1)) :=
          Nat.lor_bit _ _ _ _
      _ = Nat.bit (decide (b % 2 = 1)) (a * 2 ^ k + b >>> 1) := by
          rw [Bool.false_or, ih _ _ hlt]
      _ = 2 * (a * 2 ^ k + b / 2) + (decide (b % 2 = 1)).toNat := by
          rw [Nat.bit_val, Nat.shiftRight_one]
      _ = a * 2 ^ (k + 1) + b := by
          have hm : (decide (b % 2 = 1)).toNat = b % 2 := by
            rcases Nat.mod_two_eq_zero_or_one b with h | h <;> simp [h]
          have h2 : 2 ^ (k + 1) = 2 ^ k * 2 := Nat.pow_succ 2 k
          rw [hm, h2, ← Nat.mul_assoc]
          omega

/-- The descriptor tag `(bLength << 8) | bDescriptorType` for a byte-sized
type field. -/
lemma tag_eq_add (a b : Nat) (hb : b < 256) : a <<< 8 ||| b = a * 256 + b := by
  simpa using lor_shiftLeft_eq_add 8 a b (by simpa using hb)

/-- The fields `DeviceDesc` keeps of an 18-byte device descriptor
(`Descriptor.__init__`, sb_usb_descriptor.py lines 105..122). -/
structure DeviceDesc where
  bcdUSB : Nat
  bDeviceClass : Nat
  bDeviceSubClass : Nat
  bDeviceProtocol : Nat
  bMaxPacketSize0 : Nat
  idVendor : Nat
  idProduct : Nat
  bNumConfigurations : Nat
deriving DecidableEq

/-- The device-descriptor parsing of `Descriptor.__init__`: the fetched
buffer is always 18 bytes (`get_desc(device, 0x01, length=18)`); the
source checks only that the declared-length byte `d[0]` equals 18 and
then reads the fields.  No other byte is validated. -/
def parse_device (d : List Nat) : Except String DeviceDesc :=
  if d.getD 0 0 ≠ 18 then Except.error "Bad Device Descriptor Length"
  else Except.ok
    { bcdUSB := d.getD 3 0 <<< 8 ||| d.getD 2 0
      bDeviceClass := d.getD 4 0
      bDeviceSubClass := d.getD 5 0
      bDeviceProtocol := d.getD 6 0
      bMaxPacketSize0 := d.getD 7 0
      idVendor := d.getD 9 0 <<< 8 ||| d.getD 8 0
      idProduct := d.getD 11 0 <<< 8 ||| d.getD 10 0
      bNumConfigurations := d.getD 17 0 }

/-- An 18-byte buffer whose declared-length byte is 18 but whose
descriptor-type byte is 0x05, not the device-descriptor type 0x01. -/
def c8buf : List Nat :=
  [18, 5, 0, 0, 0, 0, 0, 0, 0, 0, 0, 0, 0, 0, 0, 0, 0, 0]

/-- C8 counterexample: a buffer whose type tag byte does not match the
device-descriptor signature is parsed successfully, with every field
read, rather than yielding a ParseError: `Descriptor.__init__` never
examines the descriptor-type byte. -/
theorem C8_counterexample_parse :
    c8buf.length = 18 ∧ c8buf.getD 1 0 ≠ 0x01 ∧
    parse_device c8buf = Except.ok ⟨0, 0, 0, 0, 0, 0, 0, 0⟩ :=
  ⟨by decide, by decide, rfl⟩

/-- C8 amended: for the 18-byte buffers the fixed-size control transfer
hands over, device-descriptor parsing fails (with a ParseError) exactly
when the declared-length byte differs from 18; the descriptor-type byte
is not checked at all. -/
theorem C8_parse_device_length_only (d : List Nat) (hlen : d.length = 18) :
    (∃ e, parse_device d = Except.error e) ↔ d.getD 0 0 ≠ 18 := by
  constructor
  · rintro ⟨e, he⟩ h18
    rw [parse_device, if_neg (by omega)] at he
    exact Except.noConfusion he
  · intro h
    exact ⟨"Bad Device Descriptor Length", by rw [parse_device, if_pos h]⟩

/-- C8 witness: the amended theorem applied to the all-zero 18-byte
buffer, whose declared-length byte 0 is not 18. -/
theorem C8_witness :
    ∃ e, parse_device (List.replicate 18 0) = Except.error e :=
  (C8_parse_device_length_only (List.replicate 18 0) (by decide)).mpr (by decide)

/-- A parsed configuration descriptor (`ConfigDesc.__init__`). -/
structure ConfigDesc where
  bNumInterfaces : Nat
  bConfigurationValue : Nat
  bMaxPower : Nat
deriving DecidableEq

/-- `ConfigDesc.__init__`: reject unless the slice is 9 bytes with
declared length 0x09 and type 0x02, then read the fields. -/
def parseConfigDesc (d : List Nat) : Except String ConfigDesc :=
  if d.length ≠ 9 ∨ d.getD 0 0 ≠ 0x09 ∨ d.getD 1 0 ≠ 0x02 then
    Except.error "Bad configuration descriptor"
  else Except.ok
    { bNumInterfaces := d.getD 4 0
      bConfigurationValue := d.getD 5 0
      bMaxPower := d.getD 8 0 }

/-- A parsed endpoint descriptor (`EndpointDesc.__init__`). -/
structure EndpointDesc where
  bEndpointAddress : Nat
  bmAttributes : Nat
  wMaxPacketSize : Nat
  bInterval : Nat
deriving DecidableEq

/-- `EndpointDesc.__init__`: reject unless the slice is at least 7 bytes
with declared length at least 0x07 and type 0x05 (7, 8 and 9 byte
variants are all accepted), then read the fields. -/
def parseEndpointDesc (d : List Nat) : Except String EndpointDesc :=
  if d.length < 7 ∨ d.getD 0 0 < 0x07 ∨ d.getD 1 0 ≠ 0x05 then
    Except.error "Bad endpoint descriptor"
  else Except.ok
    { bEndpointAddress := d.getD 2 0
      bmAttributes := d.getD 3 0
      wMaxPacketSize := d.getD 5 0 <<< 8 ||| d.getD 4 0
      bInterval := d.getD 6 0 }

/-- A parsed interface descriptor (`InterfaceDesc.__init__`) with its
ordered endpoint list. -/
structure InterfaceDesc where
  bInterfaceNumber : Nat
  bNumEndpoints : Nat
  bInterfaceClass : Nat
  bInterfaceSubClass : Nat
  bInterfaceProtocol : Nat
  endpoint : List EndpointDesc
deriving DecidableEq

/-- `InterfaceDesc.__init__`: reject unless the slice is 9 bytes with
declared length 0x09 and type 0x04, then read the fields; the endpoint
list starts empty. -/
def parseInterfaceDesc (d : List Nat) : Except String InterfaceDesc :=
  if d.length ≠ 9 ∨ d.getD 0 0 ≠ 0x09 ∨ d.getD 1 0 ≠ 0x04 then
    Except.error "Bad interface descriptor"
  else Except.ok
    { bInterfaceNumber := d.getD 2 0
      bNumEndpoints := d.getD 4 0
      bInterfaceClass := d.getD 5 0
      bInterfaceSubClass := d.getD 6 0
      bInterfaceProtocol := d.getD 7 0
      endpoint := [] }

/-- The state `Descriptor.read_configuration` mutates: the raw slice
list and the parsed configuration and interface lists. -/
structure Descriptor where
  config_desc_list : List (List Nat)
  configs : List ConfigDesc
  interfaces : List InterfaceDesc
deriving DecidableEq

/-- `self.interfaces[n].add_endpoint_descriptor(d)`: append a parsed
endpoint to the interface at index `n`.  (In the source `n` is always
the index of the last interface, so the out-of-range case is never
reached.) -/
def addEndpoint : List InterfaceDesc → Nat → EndpointDesc → List InterfaceDesc
  | [], _, _ => []
  | i :: rest, 0, ep => { i with endpoint := i.endpoint ++ [ep] } :: rest
  | i :: rest, n + 1, ep => i :: addEndpoint rest n ep

/-- The `for d in config_desc_list` loop of `read_configuration`
(sb_usb_descriptor.py lines 169..188), with the mutated `self` and the
running `interface_num` passed explicitly.  Slices shorter than 2 bytes
are skipped; a `0x0902` tag parses a configuration, a `0x0904` tag an
interface (advancing `interface_num`), a type byte 0x05 with declared
length 7..9 parses an endpoint onto the current interface or raises
"Found endpoint before interface" when none has been accepted; any
other slice is ignored. -/
def readConfigLoop :
    List (List Nat) → Descriptor → Int → Descriptor × Except String Unit
  | [], self, _ => (self, Except.ok ())
  | d :: rest, self, interface_num =>
    if d.length < 2 then readConfigLoop rest self interface_num
    else
      let bLength := d.getD 0 0
      let bDescriptorType := d.getD 1 0
      let tag := bLength <<< 8 ||| bDescriptorType
      if tag = 0x0902 then
        match parseConfigDesc d with
        | Except.error e => (self, Except.error e)
        | Except.ok c =>
          readConfigLoop rest { self with configs := self.configs ++ [c] }
            interface_num
      else if tag = 0x0904 then
        match parseInterfaceDesc d with
        | Except.error e => (self, Except.error e)
        | Except.ok i =>
          readConfigLoop rest { self with interfaces := self.interfaces ++ [i] }
            (interface_num + 1)
      else if 7 ≤ bLength ∧ bLength ≤ 9 ∧ bDescriptorType = 0x05 then
        if 0 ≤ interface_num then
          match parseEndpointDesc d with
          | Except.error e => (self, Except.error e)
          | Except.ok ep =>
            readConfigLoop rest
              { self with
                interfaces := addEndpoint self.interfaces interface_num.toNat ep }
              interface_num
        else (self, Except.error "Found endpoint before interface")
      else readConfigLoop rest self interface_num

/-- `Descriptor.read_configuration` over an already-fetched configuration
blob: split the blob, raise "Empty Configuration Descriptor" before any
field is touched when no slice results, otherwise store the slice list,
reset the parsed lists, and run the classification loop with
`interface_num = -1`.  Returns the resulting state together with the
outcome. -/
def Descriptor.read_configuration (self : Descriptor) (blob : List Nat) :
    Descriptor × Except String Unit :=
  let config_desc_list := split_desc blob
  if config_desc_list.length = 0 then
    (self, Except.error "Empty Configuration Descriptor")
  else
    readConfigLoop config_desc_list
      { self with
        config_desc_list := config_desc_list
        configs := []
        interfaces := [] }
      (-1)

/-- Whether, in a slice sequence, an endpoint-shaped slice (type byte
0x05, declared length 7..9, at least 2 bytes) appears before any
interface-shaped slice (tag 0x0904). -/
def endpointBeforeInterface : List (List Nat) → Bool
  | [] => false
  | d :: rest =>
    if 2 ≤ d.length ∧ 7 ≤ d.getD 0 0 ∧ d.getD 0 0 ≤ 9 ∧ d.getD 1 0 = 5 then true
    else if 2 ≤ d.length ∧ d.getD 0 0 = 9 ∧ d.getD 1 0 = 4 then false
    else endpointBeforeInterface rest

/-- If an endpoint-shaped slice appears before any interface-shaped slice
in a well-formed byte-slice sequence, the classification loop (entered
with `interface_num = -1`) raises "Found endpoint before interface",
from any starting state. -/
lemma readConfigLoop_endpoint_err :
    ∀ (slices : List (List Nat)) (self : Descriptor),
      (∀ s ∈ slices, s.getD 0 0 = s.length) →
      (∀ s ∈ slices, ∀ b ∈ s, b < 256) →
      endpointBeforeInterface slices = true →
      (readConfigLoop slices self (-1)).2 =
        Except.error "Found endpoint before interface" := by
  intro slices
  induction slices with
  | nil =>
    intro self _ _ hebi
    rw [endpointBeforeInterface] at hebi
    exact absurd hebi (by decide)
  | cons d rest ih =>
    intro self hwf hbytes hebi
    by_cases hA : 2 ≤ d.length ∧ 7 ≤ d.getD 0 0 ∧ d.getD 0 0 ≤ 9 ∧ d.getD 1 0 = 5
    · obtain ⟨hlen2, hbl7, hbl9, htype⟩ := hA
      have htag : d.getD 0 0 <<< 8 ||| d.getD 1 0 = d.getD 0 0 * 256 + 5 := by
        rw [htype]
        exact tag_eq_add _ 5 (by omega)
      simp only [readConfigLoop]
      rw [if_neg (show ¬ d.length < 2 by omega), htag,
        if_neg (show ¬ d.getD 0 0 * 256 + 5 = 0x0902 by omega),
        if_neg (show ¬ d.getD 0 0 * 256 + 5 = 0x0904 by omega),
        if_pos (show 7 ≤ d.getD 0 0 ∧ d.getD 0 0 ≤ 9 ∧ d.getD 1 0 = 0x05 from
          ⟨hbl7, hbl9, htype⟩),
        if_neg (show ¬ (0 : Int) ≤ -1 by decide)]
    · have hwfr : ∀ s ∈ rest, s.getD 0 0 = s.length := fun s hs =>
        hwf s (List.mem_cons_of_mem d hs)
      have hbr : ∀ s ∈ rest, ∀ b ∈ s, b < 256 := fun s hs =>
        hbytes s (List.mem_cons_of_mem d hs)
      by_cases hB : 2 ≤ d.length ∧ d.getD 0 0 = 9 ∧ d.getD 1 0 = 4
      · rw [endpointBeforeInterface, if_neg hA, if_pos hB] at hebi
        exact absurd hebi (by decide)
      · rw [endpointBeforeInterface, if_neg hA, if_neg hB] at hebi
        by_cases hlen : d.length < 2
        · rw [readConfigLoop, if_pos hlen]
          exact ih self hwfr hbr hebi
        · have hwfd := hwf d (List.mem_cons_self d rest)
          have htype_lt : d.getD 1 0 < 256 := by
            apply hbytes d (List.mem_cons_self d rest)
            have h1 : 1 < d.length := by omega
            rw [List.getD_eq_getElem?_getD, List.getElem?_eq_getElem h1,
              Option.getD_some]
            exact List.getElem_mem h1
          have htag : d.getD 0 0 <<< 8 ||| d.getD 1 0 =
              d.getD 0 0 * 256 + d.getD 1 0 :=
            tag_eq_add _ _ htype_lt
          by_cases hc : d.getD 0 0 * 256 + d.getD 1 0 = 0x0902
          · have hok : parseConfigDesc d =
                Except.ok ⟨d.getD 4 0, d.getD 5 0, d.getD 8 0⟩ := by
              rw [parseConfigDesc, if_neg (by omega)]
            simp only [readConfigLoop]
            rw [if_neg hlen, htag, if_pos hc, hok]
            exact ih _ hwfr hbr hebi
          · by_cases hc2 : d.getD 0 0 * 256 + d.getD 1 0 = 0x0904
            · exact absurd ⟨by omega, by omega, by omega⟩ hB
            · by_cases hc3 : 7 ≤ d.getD 0 0 ∧ d.getD 0 0 ≤ 9 ∧ d.getD 1 0 = 5
              · exact absurd ⟨by omega, hc3.1, hc3.2.1, hc3.2.2⟩ hA
              · simp only [readConfigLoop]
                rw [if_neg hlen, htag, if_neg hc, if_neg hc2, if_neg hc3]
                exact ih self hwfr hbr hebi

/-- C9: for every configuration blob of bytes whose slice sequence shows
an endpoint-shaped slice (type byte 0x05, declared length 7..9) before
any interface-shaped slice, `read_configuration` fails with the
"endpoint before interface" ParseError, from any starting state. -/
theorem C9_endpoint_before_interface (blob : List Nat) (self : Descriptor)
    (hbytes : ∀ b ∈ blob, b < 256)
    (hebi : endpointBeforeInterface (split_desc blob) = true) :
    (self.read_configuration blob).2 =
      Except.error "Found endpoint before interface" := by
  have hwf : ∀ s ∈ split_desc blob, s.getD 0 0 = s.length := fun s hs =>
    (split_go_slices blob blob.length 0 (by omega) s hs).2.1
  have hsub : ∀ s ∈ split_desc blob, ∀ b ∈ s, b < 256 := fun s hs b hb =>
    hbytes b ((split_go_slices blob blob.length 0 (by omega) s hs).2.2 hb)
  have hne : ¬ (split_desc blob).length = 0 := by
    intro h
    rw [List.length_eq_zero] at h
    rw [h] at hebi
    exact absurd hebi (by decide)
  simp only [Descriptor.read_configuration]
  rw [if_neg hne]
  exact readConfigLoop_endpoint_err _ _ hwf hsub hebi

/-- A 7-byte blob holding a single endpoint descriptor and nothing
before it. -/
def c9buf : List Nat := [7, 5, 0x81, 3, 8, 0, 10]

/-- C9 witness: the theorem applied to the single-endpoint blob from the
empty starting state. -/
theorem C9_witness :
    ((⟨[], [], []⟩ : Descriptor).read_configuration c9buf).2 =
      Except.error "Found endpoint before interface" :=
  C9_endpoint_before_interface c9buf ⟨[], [], []⟩ (by decide) (by decide)

/-- C10: when the fetched blob splits into zero sub-descriptor slices,
`read_configuration` raises "Empty Configuration Descriptor" and the
previously stored `config_desc_list`, `configs` and `interfaces` fields
are left exactly as they were. -/
theorem C10_empty_config_state (blob : List Nat) (self : Descriptor)
    (hempty : split_desc blob = []) :
    self.read_configuration blob =
      (self, Except.error "Empty Configuration Descriptor") := by
  simp [Descriptor.read_configuration, hempty]

/-- C10 witness: the theorem applied to the blob [0] (first byte zero,
so zero slices) from a state with a nonempty stored slice list. -/
theorem C10_witness :
    (⟨[[9]], [], []⟩ : Descriptor).read_configuration [0] =
      (⟨[[9]], [], []⟩, Except.error "Empty Configuration Descriptor") :=
  C10_empty_config_state [0] ⟨[[9]], [], []⟩ (by decide)

end Sequencer
